import Mathlib

/-!
Verification of the field construction and replay core of the zap structured
logging package (`field.go`).

A `Field` is an immutable tagged value: a key, an integer discriminant
(`fieldType`, which in Go is a plain `int`), a 64-bit integer payload slot
(`ival`), a string payload slot (`str`) and a reference payload slot (`obj`,
Go `interface\x7b\x7d`).  `Field.AddTo` replays one field into a sink
(`KeyValue`) by a single switch on the discriminant.

Modelling choices:
- Go `int64` is modelled as `Int`; the cast `uint64 -> int64` and back is
  made explicit (`uint64ToInt64`, `int64ToUint64`) with wrapping at `2^64`.
- Go `float64` values are identified with their IEEE-754 bit patterns
  (`Nat` below `2^64`): `math.Float64bits` / `math.Float64frombits` are a
  bijection between floats (with NaN payloads distinguished) and 64-bit
  patterns, and every claim about floats in this core is a claim about the
  stored pattern.
- Go `error` is modelled as `Option String` (`none` is the nil error, and
  `some msg` an error whose `Error()` method returns `msg`).
- The sink is modelled by the trace of calls `AddTo` performs on it, plus an
  `Oracle` supplying the outcomes of the sink operations that return errors
  (`AddObject`) and the behaviour of user-supplied marshalers.
- A Go `panic` is modelled by a `Bool` flag paired with the trace of calls
  performed before the panic.

All definitions live in the `Zap` namespace, mirroring the Go package name,
because `Field`, `Bool`, `Int`, `Int64` and `String` would otherwise clash
with library names.
-/

set_option autoImplicit false

namespace Zap

/-- Shorthand for the string type, usable after the `String` factory below
shadows the name inside this namespace. -/
abbrev Str := String

/-- Model of Go `int64` (and of the platform `int`, which is 64-bit),
usable after the `Int` factory below shadows the name. -/
abbrev I64 := Int

/-- Shorthand for the boolean type, usable after the `Bool` factory below
shadows the name. -/
abbrev B := Bool

/-- Discriminant constant `unknownType`, from the `fieldType` constant
block.  In Go, `fieldType` is declared as `type fieldType int`, so the
discriminant is a plain machine integer and values outside the enumeration
are representable. -/
def unknownType : I64 := 0

/-- Discriminant for boolean fields. -/
def boolType : I64 := 1

/-- Discriminant for float64 fields. -/
def floatType : I64 := 2

/-- Discriminant for platform-int fields. -/
def intType : I64 := 3

/-- Discriminant for int64 fields. -/
def int64Type : I64 := 4

/-- Discriminant for string fields. -/
def stringType : I64 := 5

/-- Discriminant for marshaler-reference fields. -/
def marshalerType : I64 := 6

/-- Discriminant for object-reference fields. -/
def objectType : I64 := 7

/-- Discriminant for stringer-reference fields. -/
def stringerType : I64 := 8

/-- Discriminant for no-op fields. -/
def skipType : I64 := 9

mutual

/-- The `Field` struct: `key string; fieldType fieldType; ival int64;
str string; obj interface\x7b\x7d`. -/
inductive Field where
  | mk : Str → I64 → I64 → Str → Obj → Field

/-- The dynamic value stored in the `obj interface\x7b\x7d` slot.  `nil` is the
nil interface (the zero value).  `stringer s` stands for a value whose
dynamic type implements `fmt.Stringer` and whose `String()` method returns
`s`.  `marshaler m` is a value implementing `LogMarshaler`.  `other tag` is
any other dynamic value, identified by an opaque handle. -/
inductive Obj where
  | nil : Obj
  | stringer : Str → Obj
  | marshaler : LogMarshaler → Obj
  | other : Nat → Obj

/-- A `LogMarshaler` value: either the package-private `multiFields`
wrapper around a field slice (built by `Nest`), or an arbitrary
user-supplied marshaler identified by an opaque handle whose behaviour the
`Oracle` supplies. -/
inductive LogMarshaler where
  | multiFields : List Field → LogMarshaler
  | user : Nat → LogMarshaler

end

/-- Accessor for the `key` struct field. -/
def Field.key : Field → Str
  | .mk k _ _ _ _ => k

/-- Accessor for the `fieldType` struct field. -/
def Field.fieldType : Field → I64
  | .mk _ t _ _ _ => t

/-- Accessor for the `ival` struct field. -/
def Field.ival : Field → I64
  | .mk _ _ i _ _ => i

/-- Accessor for the `str` struct field. -/
def Field.str : Field → Str
  | .mk _ _ _ s _ => s

/-- Accessor for the `obj` struct field. -/
def Field.obj : Field → Obj
  | .mk _ _ _ _ o => o

/-- One call performed on a `KeyValue` sink, with its arguments.  A float is
passed to `AddFloat64` as its 64-bit pattern (see the module comment). -/
inductive Call where
  | addBool : Str → B → Call
  | addFloat64 : Str → Nat → Call
  | addInt : Str → I64 → Call
  | addInt64 : Str → I64 → Call
  | addString : Str → Str → Call
  | addMarshaler : Str → LogMarshaler → Call
  | addObject : Str → Obj → Call

/-- One event observed at a conformant sink, used for the flattened view of
replay in which `AddMarshaler` shows up as a bracketed sub-scope.  A float
is recorded as its 64-bit pattern. -/
inductive Event where
  | addBool : Str → B → Event
  | addFloat64 : Str → Nat → Event
  | addInt : Str → I64 → Event
  | addInt64 : Str → I64 → Event
  | addString : Str → Str → Event
  | addObject : Str → Obj → Event
  | openNamespace : Str → Event
  | closeNamespace : Str → Event

/-- Behaviour of the parts of the environment that field replay consults:
what calls (and, in the flattened view, events) a user-supplied marshaler
performs on the sink it is handed, the error it returns, and the error the
sink's reflective `AddObject` returns for a given key and object.  A
conformant sink's `AddMarshaler` invokes the marshaler's `MarshalLog`
against itself and returns that error. -/
structure Oracle where
  userCalls : Nat → List Call
  userEvents : Nat → List Event
  userResult : Nat → Option Str
  objectResult : Str → Obj → Option Str

/-- Reinterpret a 64-bit unsigned pattern as a Go `int64`
(the cast `int64(u)` for `u` a `uint64`). -/
def uint64ToInt64 (u : Nat) : I64 :=
  if u < 2 ^ 63 then (u : Int) else (u : Int) - 2 ^ 64

/-- Reinterpret a Go `int64` as a 64-bit unsigned pattern
(the cast `uint64(i)` for `i` an `int64`). -/
def int64ToUint64 (i : I64) : Nat :=
  (i % (2 ^ 64 : Int)).toNat

mutual

/-- `Field.AddTo`: replay one field into a sink.  Returns the list of calls
`AddTo` itself performs on the `kv` sink, in order, and a flag that is true
when the replay panics (unknown discriminant, failed type assertion, or a
panic inside a nested marshaler).  The error returned by the sink's
`AddMarshaler` is the error of the marshaler's `MarshalLog` (conformant
sink); the error returned by `AddObject` comes from the oracle.  A non-nil
error is converted into the extra call
`AddString(fmt.Sprintf("%sError", f.key), err.Error())`. -/
def Field.AddTo (orc : Oracle) : Field → List Call × B
  | .mk key t ival str obj =>
    if t = boolType then ([.addBool key (decide (ival = 1))], false)
    else if t = floatType then ([.addFloat64 key (int64ToUint64 ival)], false)
    else if t = intType then ([.addInt key ival], false)
    else if t = int64Type then ([.addInt64 key ival], false)
    else if t = stringType then ([.addString key str], false)
    else if t = stringerType then
      match obj with
      | .stringer s => ([.addString key s], false)
      | _ => ([], true)
    else if t = marshalerType then
      match obj with
      | .marshaler m =>
        let r := LogMarshaler.MarshalLog orc m
        if r.2.2 then ([.addMarshaler key m], true)
        else
          match r.2.1 with
          | none => ([.addMarshaler key m], false)
          | some msg => ([.addMarshaler key m, .addString (key ++ "Error") msg], false)
      | _ => ([], true)
    else if t = objectType then
      match orc.objectResult key obj with
      | none => ([.addObject key obj], false)
      | some msg => ([.addObject key obj, .addString (key ++ "Error") msg], false)
    else if t = skipType then ([], false)
    else ([], true)

/-- The `MarshalLog` method of a `LogMarshaler`: the calls it performs on
the sink it is handed, the error it returns, and a panic flag.
`multiFields.MarshalLog` calls `addFields` and returns nil. -/
def LogMarshaler.MarshalLog (orc : Oracle) : LogMarshaler → List Call × Option Str × B
  | .multiFields fs =>
    let r := addFields orc fs
    (r.1, none, r.2)
  | .user n => (orc.userCalls n, orc.userResult n, false)

/-- `addFields`: replay a field slice into a sink in order via each field's
`AddTo`; a panic in one field aborts the loop. -/
def addFields (orc : Oracle) : List Field → List Call × B
  | [] => ([], false)
  | f :: fs =>
    let r := Field.AddTo orc f
    if r.2 then (r.1, true)
    else
      let rest := addFields orc fs
      (r.1 ++ rest.1, rest.2)

end

mutual

/-- Modelled from the spec: the sink implementations (the JSON and text
encoders implementing the `KeyValue` interface) belong to this repository
but are not among the given sources.  Per the spec, a conformant sink's
`AddMarshaler(key, m)` opens a sub-scope (namespace) keyed by `key`,
invokes `m.MarshalLog` against itself, closes the sub-scope, and returns
the error `MarshalLog` returned; every other sink operation records one
event.  `Field.replay` is the event trace `Field.AddTo` produces through
such a sink, with the same panic flag as `Field.AddTo` (a panic inside
`MarshalLog` escapes before the sub-scope is closed). -/
def Field.replay (orc : Oracle) : Field → List Event × B
  | .mk key t ival str obj =>
    if t = boolType then ([.addBool key (decide (ival = 1))], false)
    else if t = floatType then ([.addFloat64 key (int64ToUint64 ival)], false)
    else if t = intType then ([.addInt key ival], false)
    else if t = int64Type then ([.addInt64 key ival], false)
    else if t = stringType then ([.addString key str], false)
    else if t = stringerType then
      match obj with
      | .stringer s => ([.addString key s], false)
      | _ => ([], true)
    else if t = marshalerType then
      match obj with
      | .marshaler m =>
        let r := LogMarshaler.replayLog orc m
        if r.2.2 then (Event.openNamespace key :: r.1, true)
        else
          match r.2.1 with
          | none => (Event.openNamespace key :: r.1 ++ [Event.closeNamespace key], false)
          | some msg =>
            (Event.openNamespace key :: r.1 ++
              [Event.closeNamespace key, Event.addString (key ++ "Error") msg], false)
      | _ => ([], true)
    else if t = objectType then
      match orc.objectResult key obj with
      | none => ([.addObject key obj], false)
      | some msg => ([.addObject key obj, .addString (key ++ "Error") msg], false)
    else if t = skipType then ([], false)
    else ([], true)

/-- Event-trace view of a marshaler's `MarshalLog` run against a conformant
sink: the events it writes, the error it returns, and a panic flag. -/
def LogMarshaler.replayLog (orc : Oracle) : LogMarshaler → List Event × Option Str × B
  | .multiFields fs =>
    let r := replayFields orc fs
    (r.1, none, r.2)
  | .user n => (orc.userEvents n, orc.userResult n, false)

/-- Event-trace view of `addFields`: replay a field slice in order; a panic
in one field aborts the loop. -/
def replayFields (orc : Oracle) : List Field → List Event × B
  | [] => ([], false)
  | f :: fs =>
    let r := Field.replay orc f
    if r.2 then (r.1, true)
    else
      let rest := replayFields orc fs
      (r.1 ++ rest.1, rest.2)

end

/-- The standard base64 alphabet, table `A-Z a-z 0-9 + /`. -/
def base64Chars : List Char :=
  ['A', 'B', 'C', 'D', 'E', 'F', 'G', 'H', 'I', 'J', 'K', 'L', 'M',
   'N', 'O', 'P', 'Q', 'R', 'S', 'T', 'U', 'V', 'W', 'X', 'Y', 'Z',
   'a', 'b', 'c', 'd', 'e', 'f', 'g', 'h', 'i', 'j', 'k', 'l', 'm',
   'n', 'o', 'p', 'q', 'r', 's', 't', 'u', 'v', 'w', 'x', 'y', 'z',
   '0', '1', '2', '3', '4', '5', '6', '7', '8', '9', '+', '/']

/-- The character the standard base64 alphabet assigns to a 6-bit group. -/
def b64Char (n : Nat) : Char := base64Chars.getD n 'A'

/-- Standard padded base64 encoding, three input bytes to four output
characters, with `=` padding for a final group of one or two bytes.  This
models `encoding/base64.StdEncoding.EncodeToString` from the Go standard
library, an external collaborator of this core. -/
def base64Groups : List Nat → List Char
  | [] => []
  | [a] => [b64Char (a / 4), b64Char (a % 4 * 16), '=', '=']
  | [a, b] => [b64Char (a / 4), b64Char (a % 4 * 16 + b / 16), b64Char (b % 16 * 4), '=']
  | a :: b :: c :: rest =>
    b64Char (a / 4) :: b64Char (a % 4 * 16 + b / 16) :: b64Char (b % 16 * 4 + c / 64) ::
      b64Char (c % 64) :: base64Groups rest

/-- Standard padded base64 encoding of a byte sequence, as a string. -/
def base64Encode (bs : List Nat) : Str := (base64Groups bs).asString

/-- `Skip()`: a no-op field. -/
def Skip : Field := .mk "" skipType 0 "" .nil

/-- `Bool(key, val)`: stores 1 or 0 in the numeric slot. -/
def Bool (key : Str) (val : B) : Field :=
  .mk key boolType (if val then 1 else 0) "" .nil

/-- `Float64(key, val)`, acting on the bit pattern of `val`:
`ival` is `int64(math.Float64bits(val))`. -/
def Float64 (key : Str) (bits : Nat) : Field :=
  .mk key floatType (uint64ToInt64 bits) "" .nil

/-- `Int(key, val)`: `ival` is `int64(val)`, the identity on the 64-bit
platform integer. -/
def Int (key : Str) (val : I64) : Field :=
  .mk key intType val "" .nil

/-- `Int64(key, val)`. -/
def Int64 (key : Str) (val : I64) : Field :=
  .mk key int64Type val "" .nil

/-- `String(key, val)`. -/
def String (key val : Str) : Field :=
  .mk key stringType 0 val .nil

/-- `Base64(key, val)`: the byte slice is encoded eagerly, at construction
time, and stored as a string-kind field. -/
def Base64 (key : Str) (val : List Nat) : Field :=
  String key (base64Encode val)

/-- `Stringer(key, val)`. -/
def Stringer (key : Str) (val : Obj) : Field :=
  .mk key stringerType 0 "" val

/-- `Error(err)`: a nil error gives `Skip()`, otherwise
`String("error", err.Error())`. -/
def Error : Option Str → Field
  | none => Skip
  | some msg => String "error" msg

/-- `Duration(key, val)`: `Int64(key, int64(val))`, a nanosecond count. -/
def Duration (key : Str) (nanos : I64) : Field :=
  Int64 key nanos

/-- `Marshaler(key, val)`. -/
def Marshaler (key : Str) (val : LogMarshaler) : Field :=
  .mk key marshalerType 0 "" (.marshaler val)

/-- `Object(key, val)`. -/
def Object (key : Str) (val : Obj) : Field :=
  .mk key objectType 0 "" val

/-- `Nest(key, fields...)`: a marshaler-kind field wrapping `multiFields`. -/
def Nest (key : Str) (fields : List Field) : Field :=
  .mk key marshalerType 0 "" (.marshaler (.multiFields fields))

/-- The zero value of the `Field` struct: empty strings, zero integers, nil
interface. -/
def zeroField : Field := .mk "" 0 0 "" .nil

end Zap

/-- An environment in which every user marshaler writes nothing and
succeeds, and every reflective `AddObject` succeeds. -/
def quietSink : Zap.Oracle :=
  ⟨fun _ => [], fun _ => [], fun _ => none, fun _ _ => none⟩

/-- An environment in which every user marshaler and every reflective
`AddObject` fails with message "boom". -/
def boomSink : Zap.Oracle :=
  ⟨fun _ => [], fun _ => [], fun _ => some "boom", fun _ _ => some "boom"⟩

theorem addFields_eq_flatten (orc : Zap.Oracle) (fs : List Zap.Field)
    (h : (Zap.addFields orc fs).2 = false) :
    (Zap.addFields orc fs).1 = (fs.map fun f => (Zap.Field.AddTo orc f).1).flatten := by
  induction fs with
  | nil => simp [Zap.addFields]
  | cons f fs ih =>
    simp only [Zap.addFields] at h ⊢
    by_cases hp : (Zap.Field.AddTo orc f).2 = true
    · simp [hp] at h
    · simp only [Bool.not_eq_true] at hp
      simp [hp] at h ⊢
      exact ih h

theorem replayFields_eq_flatten (orc : Zap.Oracle) (fs : List Zap.Field)
    (h : (Zap.replayFields orc fs).2 = false) :
    (Zap.replayFields orc fs).1 = (fs.map fun f => (Zap.Field.replay orc f).1).flatten := by
  induction fs with
  | nil => simp [Zap.replayFields]
  | cons f fs ih =>
    simp only [Zap.replayFields] at h ⊢
    by_cases hp : (Zap.Field.replay orc f).2 = true
    · simp [hp] at h
    · simp only [Bool.not_eq_true] at hp
      simp [hp] at h ⊢
      exact ih h

/-- C4: `Error(nil)` produces a field whose `AddTo` performs zero sink
calls, and for every non-nil error `err`, `Error(err)` produces a field
whose `AddTo` performs exactly one sink call,
`AddString("error", err.Error())`.  (A nil Go error is `none`, and a
non-nil error with message `msg` is `some msg`.) -/
theorem error_field_replay (orc : Zap.Oracle) (msg : String) :
    Zap.Field.AddTo orc (Zap.Error none) = ([], false) ∧
    Zap.Field.AddTo orc (Zap.Error (some msg)) =
      ([Zap.Call.addString "error" msg], false) :=
  ⟨rfl, rfl⟩

/-- C9: the zero-value `Field` carries the `unknownType` discriminant,
which is distinct from `skipType`, so `AddTo` on a default-constructed
field panics (flag `true`) instead of silently doing nothing; it performs
no sink call before the panic. -/
theorem zero_field_replay_panics (orc : Zap.Oracle) :
    Zap.zeroField.fieldType = Zap.unknownType ∧
    Zap.unknownType ≠ Zap.skipType ∧
    Zap.Field.AddTo orc Zap.zeroField = ([], true) :=
  ⟨rfl, by decide, rfl⟩


/-- C5: for every field whose kind discriminant is outside the closed
enumeration of known kinds (the nine cases the `AddTo` switch handles),
`AddTo` panics (flag `true`) and performs no sink write call. -/
theorem unknown_kind_panics (orc : Zap.Oracle) (key st : String) (iv : Int)
    (obj : Zap.Obj) (t : Int)
    (h : t ∉ [Zap.boolType, Zap.floatType, Zap.intType, Zap.int64Type, Zap.stringType,
      Zap.stringerType, Zap.marshalerType, Zap.objectType, Zap.skipType]) :
    Zap.Field.AddTo orc (Zap.Field.mk key t iv st obj) = ([], true) := by
  simp only [List.mem_cons, List.not_mem_nil, or_false, not_or] at h
  simp only [Zap.Field.AddTo.eq_def]
  rw [if_neg h.1, if_neg h.2.1, if_neg h.2.2.1, if_neg h.2.2.2.1, if_neg h.2.2.2.2.1,
    if_neg h.2.2.2.2.2.1, if_neg h.2.2.2.2.2.2.1, if_neg h.2.2.2.2.2.2.2.1,
    if_neg h.2.2.2.2.2.2.2.2]

theorem unknown_kind_panics_witness :
    (42 : Int) ∉ [Zap.boolType, Zap.floatType, Zap.intType, Zap.int64Type, Zap.stringType,
      Zap.stringerType, Zap.marshalerType, Zap.objectType, Zap.skipType] ∧
    Zap.Field.AddTo quietSink (Zap.Field.mk "k" 42 0 "" Zap.Obj.nil) = ([], true) :=
  ⟨by decide, unknown_kind_panics quietSink "k" "" 0 Zap.Obj.nil 42 (by decide)⟩

/-- C7: replaying `Bool(key, b)` performs exactly one call
`AddBool(key, b)`; replaying `Int(key, v)` performs exactly one
`AddInt(key, v)`; replaying `Int64(key, w)` performs exactly one
`AddInt64(key, w)`; the original value is recovered exactly over the whole
64-bit platform range. -/
theorem scalar_replay_exact (orc : Zap.Oracle) (key : String) (b : Bool) (v w : Int)
    (hv1 : -2 ^ 63 ≤ v) (hv2 : v < 2 ^ 63) (hw1 : -2 ^ 63 ≤ w) (hw2 : w < 2 ^ 63) :
    Zap.Field.AddTo orc (Zap.Bool key b) = ([Zap.Call.addBool key b], false) ∧
    Zap.Field.AddTo orc (Zap.Int key v) = ([Zap.Call.addInt key v], false) ∧
    Zap.Field.AddTo orc (Zap.Int64 key w) = ([Zap.Call.addInt64 key w], false) := by
  refine ⟨?_, rfl, rfl⟩
  cases b <;> rfl

theorem scalar_replay_exact_witness :
    (-2 ^ 63 ≤ (9223372036854775807 : Int) ∧ (9223372036854775807 : Int) < 2 ^ 63 ∧
      -2 ^ 63 ≤ (-9223372036854775808 : Int) ∧ (-9223372036854775808 : Int) < 2 ^ 63) ∧
    (Zap.Field.AddTo quietSink (Zap.Bool "k" true) = ([Zap.Call.addBool "k" true], false) ∧
     Zap.Field.AddTo quietSink (Zap.Int "k" 9223372036854775807) =
       ([Zap.Call.addInt "k" 9223372036854775807], false) ∧
     Zap.Field.AddTo quietSink (Zap.Int64 "k" (-9223372036854775808)) =
       ([Zap.Call.addInt64 "k" (-9223372036854775808)], false)) :=
  ⟨⟨by norm_num, by norm_num, by norm_num, by norm_num⟩,
    scalar_replay_exact quietSink "k" true 9223372036854775807 (-9223372036854775808)
      (by norm_num) (by norm_num) (by norm_num) (by norm_num)⟩

/-- C2: replaying `Float64(key, v)` performs exactly one call
`AddFloat64(key, w)` with `w` bit-identical to `v`: the 64-bit pattern
round-trips losslessly through the `int64` payload slot (the casts
`int64(Float64bits v)` at construction and `Float64frombits(uint64(ival))`
at replay).  This covers NaN, the infinities and signed zero, which are
particular 64-bit patterns. -/
theorem float64_replay_bit_exact (orc : Zap.Oracle) (key : String) (bits : Nat)
    (h : bits < 2 ^ 64) :
    Zap.Field.AddTo orc (Zap.Float64 key bits) = ([Zap.Call.addFloat64 key bits], false) := by
  have hrt : Zap.int64ToUint64 (Zap.uint64ToInt64 bits) = bits := by
    unfold Zap.int64ToUint64 Zap.uint64ToInt64
    split <;> omega
  have e : Zap.Field.AddTo orc (Zap.Float64 key bits) =
      ([Zap.Call.addFloat64 key (Zap.int64ToUint64 (Zap.uint64ToInt64 bits))], false) := rfl
  rw [e, hrt]

theorem float64_replay_bit_exact_witness :
    (0x7FF8000000000000 : Nat) < 2 ^ 64 ∧
    Zap.Field.AddTo quietSink (Zap.Float64 "f" 0x7FF8000000000000) =
      ([Zap.Call.addFloat64 "f" 0x7FF8000000000000], false) :=
  ⟨by norm_num, float64_replay_bit_exact quietSink "f" 0x7FF8000000000000 (by norm_num)⟩

/-- C6: `Base64(key, bs)` is a string-kind field holding the standard
padded base64 encoding of `bs`, computed eagerly at construction; its
replay performs exactly one call `AddString(key, base64(bs))`; and the
encoding of `[0, 1, 2, 3]` is `"AAECAw=="`. -/
theorem base64_field_replay (orc : Zap.Oracle) (key : String) (bs : List Nat)
    (h : ∀ b ∈ bs, b < 256) :
    Zap.Base64 key bs = Zap.String key (Zap.base64Encode bs) ∧
    (Zap.Base64 key bs).fieldType = Zap.stringType ∧
    Zap.Field.AddTo orc (Zap.Base64 key bs) =
      ([Zap.Call.addString key (Zap.base64Encode bs)], false) ∧
    Zap.base64Encode [0, 1, 2, 3] = "AAECAw==" :=
  ⟨rfl, rfl, rfl, by decide⟩

theorem base64_field_replay_witness :
    (∀ b ∈ [0, 1, 2, 3], b < 256) ∧
    Zap.Field.AddTo quietSink (Zap.Base64 "b" [0, 1, 2, 3]) =
      ([Zap.Call.addString "b" (Zap.base64Encode [0, 1, 2, 3])], false) :=
  ⟨by decide, (base64_field_replay quietSink "b" [0, 1, 2, 3] (by decide)).2.2.1⟩

/-- C8: for fields of the scalar kinds (bool, float64, int, int64, string)
and the skip kind, the calls `AddTo` performs do not depend on the sink
environment: replaying into two independent sinks yields the identical
call sequence, so replay of these kinds is a function of the field value
alone. -/
theorem scalar_replay_deterministic (orc1 orc2 : Zap.Oracle) (f : Zap.Field)
    (h : f.fieldType = Zap.boolType ∨ f.fieldType = Zap.floatType ∨
      f.fieldType = Zap.intType ∨ f.fieldType = Zap.int64Type ∨
      f.fieldType = Zap.stringType ∨ f.fieldType = Zap.skipType) :
    Zap.Field.AddTo orc1 f = Zap.Field.AddTo orc2 f := by
  obtain ⟨key, t, iv, st, obj⟩ := f
  simp only [Zap.Field.fieldType] at h
  rcases h with h | h | h | h | h | h <;> (subst h; rfl)

theorem scalar_replay_deterministic_witness :
    ((Zap.String "a" "b").fieldType = Zap.boolType ∨
      (Zap.String "a" "b").fieldType = Zap.floatType ∨
      (Zap.String "a" "b").fieldType = Zap.intType ∨
      (Zap.String "a" "b").fieldType = Zap.int64Type ∨
      (Zap.String "a" "b").fieldType = Zap.stringType ∨
      (Zap.String "a" "b").fieldType = Zap.skipType) ∧
    Zap.Field.AddTo quietSink (Zap.String "a" "b") =
      Zap.Field.AddTo boomSink (Zap.String "a" "b") :=
  ⟨by decide, scalar_replay_deterministic quietSink boomSink (Zap.String "a" "b") (by decide)⟩

/-- C1: when the sink's `AddMarshaler` (resp. `AddObject`) returns a
non-nil error for a marshaler-kind (resp. object-kind) field, `AddTo`
returns normally (no panic, and `AddTo` has no error result to propagate)
and performs exactly one additional sink call:
`AddString(key ++ "Error", err.Error())`.  A conformant sink's
`AddMarshaler` returns the error of the marshaler's own `MarshalLog`; the
error of the reflective `AddObject` comes from the environment. -/
theorem encoder_failure_absorbed (orc : Zap.Oracle) (key msg emsg : String)
    (m : Zap.LogMarshaler) (o : Zap.Obj)
    (hm : (Zap.LogMarshaler.MarshalLog orc m).2.1 = some msg)
    (ho : orc.objectResult key o = some emsg) :
    Zap.Field.AddTo orc (Zap.Marshaler key m) =
      ([Zap.Call.addMarshaler key m, Zap.Call.addString (key ++ "Error") msg], false) ∧
    Zap.Field.AddTo orc (Zap.Object key o) =
      ([Zap.Call.addObject key o, Zap.Call.addString (key ++ "Error") emsg], false) := by
  constructor
  · cases m with
    | multiFields fs => simp [Zap.LogMarshaler.MarshalLog] at hm
    | user n =>
      simp only [Zap.LogMarshaler.MarshalLog] at hm
      have e : Zap.Field.AddTo orc (Zap.Marshaler key (Zap.LogMarshaler.user n)) =
          (match orc.userResult n with
           | none => ([Zap.Call.addMarshaler key (Zap.LogMarshaler.user n)], false)
           | some msg => ([Zap.Call.addMarshaler key (Zap.LogMarshaler.user n),
               Zap.Call.addString (key ++ "Error") msg], false)) := rfl
      rw [e, hm]
  · have e : Zap.Field.AddTo orc (Zap.Object key o) =
        (match orc.objectResult key o with
         | none => ([Zap.Call.addObject key o], false)
         | some msg => ([Zap.Call.addObject key o,
             Zap.Call.addString (key ++ "Error") msg], false)) := rfl
    rw [e, ho]

theorem encoder_failure_absorbed_witness :
    (Zap.LogMarshaler.MarshalLog boomSink (Zap.LogMarshaler.user 0)).2.1 = some "boom" ∧
    boomSink.objectResult "payload" (Zap.Obj.other 0) = some "boom" ∧
    (Zap.Field.AddTo boomSink (Zap.Marshaler "payload" (Zap.LogMarshaler.user 0)) =
      ([Zap.Call.addMarshaler "payload" (Zap.LogMarshaler.user 0),
        Zap.Call.addString ("payload" ++ "Error") "boom"], false) ∧
     Zap.Field.AddTo boomSink (Zap.Object "payload" (Zap.Obj.other 0)) =
      ([Zap.Call.addObject "payload" (Zap.Obj.other 0),
        Zap.Call.addString ("payload" ++ "Error") "boom"], false)) :=
  ⟨rfl, rfl,
    encoder_failure_absorbed boomSink "payload" "boom" "boom"
      (Zap.LogMarshaler.user 0) (Zap.Obj.other 0) rfl rfl⟩

/-- C10: `multiFields.MarshalLog` returns nil whenever it returns at all,
so replaying a `Nest` field performs only the single `AddMarshaler` call
at the group's own level and never appends a `key ++ "Error"` synthetic
field there, whatever the inner fields do. -/
theorem nest_never_emits_group_error (orc : Zap.Oracle) (key : String)
    (fs : List Zap.Field) :
    (Zap.LogMarshaler.MarshalLog orc (Zap.LogMarshaler.multiFields fs)).2.1 = none ∧
    (Zap.Field.AddTo orc (Zap.Nest key fs)).1 =
      [Zap.Call.addMarshaler key (Zap.LogMarshaler.multiFields fs)] := by
  refine ⟨rfl, ?_⟩
  have e : Zap.Field.AddTo orc (Zap.Nest key fs) =
      (if (Zap.addFields orc fs).2
       then ([Zap.Call.addMarshaler key (Zap.LogMarshaler.multiFields fs)], true)
       else ([Zap.Call.addMarshaler key (Zap.LogMarshaler.multiFields fs)], false)) := rfl
  rw [e]
  split <;> rfl

/-- C3: replaying `Nest(key, fs)` performs exactly one sink call,
`AddMarshaler(key, multiFields fs)`; the wrapped marshaler's `MarshalLog`
replays every field of `fs` in original order, each via its own `AddTo`,
and returns nil; and through a conformant sink the whole replay opens the
sub-scope keyed by `key`, replays each field of `fs` in order inside it,
and closes the sub-scope.  `fs` is arbitrary (possibly empty, possibly
itself containing nested groups, to arbitrary depth). -/
theorem nest_replay_subscope (orc : Zap.Oracle) (key : String) (fs : List Zap.Field)
    (h : (Zap.addFields orc fs).2 = false)
    (h2 : (Zap.replayFields orc fs).2 = false) :
    Zap.Field.AddTo orc (Zap.Nest key fs) =
      ([Zap.Call.addMarshaler key (Zap.LogMarshaler.multiFields fs)], false) ∧
    Zap.LogMarshaler.MarshalLog orc (Zap.LogMarshaler.multiFields fs) =
      ((fs.map fun f => (Zap.Field.AddTo orc f).1).flatten, none, false) ∧
    Zap.Field.replay orc (Zap.Nest key fs) =
      (Zap.Event.openNamespace key ::
        ((fs.map fun f => (Zap.Field.replay orc f).1).flatten ++
          [Zap.Event.closeNamespace key]), false) := by
  refine ⟨?_, ?_, ?_⟩
  · have e : Zap.Field.AddTo orc (Zap.Nest key fs) =
        (if (Zap.addFields orc fs).2
         then ([Zap.Call.addMarshaler key (Zap.LogMarshaler.multiFields fs)], true)
         else ([Zap.Call.addMarshaler key (Zap.LogMarshaler.multiFields fs)], false)) := rfl
    rw [e, h]
    rfl
  · have e : Zap.LogMarshaler.MarshalLog orc (Zap.LogMarshaler.multiFields fs) =
        ((Zap.addFields orc fs).1, none, (Zap.addFields orc fs).2) := rfl
    rw [e, h, addFields_eq_flatten orc fs h]
  · have e : Zap.Field.replay orc (Zap.Nest key fs) =
        (if (Zap.replayFields orc fs).2
         then (Zap.Event.openNamespace key :: (Zap.replayFields orc fs).1, true)
         else (Zap.Event.openNamespace key ::
           ((Zap.replayFields orc fs).1 ++ [Zap.Event.closeNamespace key]), false)) := rfl
    rw [e, h2]
    rw [if_neg (by simp)]
    rw [replayFields_eq_flatten orc fs h2]

theorem nest_replay_subscope_witness :
    (Zap.addFields quietSink [Zap.Int "status" 200, Zap.String "method" "GET"]).2 = false ∧
    (Zap.replayFields quietSink [Zap.Int "status" 200, Zap.String "method" "GET"]).2 = false ∧
    Zap.Field.replay quietSink (Zap.Nest "req" [Zap.Int "status" 200, Zap.String "method" "GET"]) =
      (Zap.Event.openNamespace "req" ::
        (([Zap.Int "status" 200, Zap.String "method" "GET"].map
            fun f => (Zap.Field.replay quietSink f).1).flatten ++
          [Zap.Event.closeNamespace "req"]), false) :=
  ⟨rfl, rfl,
    (nest_replay_subscope quietSink "req" [Zap.Int "status" 200, Zap.String "method" "GET"]
      rfl rfl).2.2⟩
